import Mathlib

/-!
Verification of the HRSceneFormat core (hrsf): a shallow embedding of the
scene-interchange format's data model, the animation-path evaluator, the
material deduplication/remap pass, the referential-integrity verifier and
the versioned JSON codec, together with theorems settling the specified
properties.

Embedding conventions:
* C++ `float` values are embedded as exact rationals (`ℚ`).  Every concrete
  computation appearing in a theorem below is exact in IEEE arithmetic as
  well (multiplications by 0 and 1, comparisons of identically written
  literals), so no rounding behaviour is hidden by this choice.
* fallible code (`throw std::runtime_error`) is embedded as `Except Err`.
* the external collaborators (the bmf geometry store, the filesystem and the
  colour-space conversion functions) are modelled from the spec where noted,
  since their implementations live outside this repository.
-/

namespace HRSF

/-- The result tag of an embedded fallible operation. -/
def exceptOk {ε α : Type} : Except ε α → Bool
  | .ok _ => true
  | .error _ => false

/-- glm::vec3 with float components embedded as exact rationals. -/
structure Vec3 where
  x : ℚ
  y : ℚ
  z : ℚ
deriving DecidableEq, Repr

/-- glm::vec3(0.0f). -/
def Vec3.zero : Vec3 := ⟨0, 0, 0⟩

/-- componentwise vector addition. -/
def Vec3.add (a b : Vec3) : Vec3 := ⟨a.x + b.x, a.y + b.y, a.z + b.z⟩

instance : Add Vec3 := ⟨Vec3.add⟩

/-- componentwise vector subtraction. -/
def Vec3.sub (a b : Vec3) : Vec3 := ⟨a.x - b.x, a.y - b.y, a.z - b.z⟩

instance : Sub Vec3 := ⟨Vec3.sub⟩

/-- scalar * vector (and vector * scalar, which glm defines identically). -/
def Vec3.smul (s : ℚ) (v : Vec3) : Vec3 := ⟨s * v.x, s * v.y, s * v.z⟩

/-- vector / scalar. -/
def Vec3.divs (v : Vec3) (s : ℚ) : Vec3 := ⟨v.x / s, v.y / s, v.z / s⟩

/-- glm::vec3(f): replicate a scalar into all three components. -/
def Vec3.splat (q : ℚ) : Vec3 := ⟨q, q, q⟩

/-- hrsf::PathSection: one keyframe, a duration plus a target position. -/
structure PathSection where
  time : ℚ
  position : Vec3
deriving DecidableEq, Repr

/-- hrsf::Path: keyframe storage plus the sampling cursor (m_curSection, m_time).
`isCircle` caches the topology inference done by the constructor. -/
structure Path where
  sections : List PathSection
  curSection : ℕ
  scale : ℚ
  time : ℚ
  isCircle : Bool
deriving DecidableEq, Repr

/-- The topology inference of the Path constructor: a closed loop when the
last section's position equals the origin. -/
def circleOf (sections : List PathSection) : Bool :=
  match sections.getLast? with
  | none => false
  | some s => s.position = Vec3.zero

/-- The Path(sections, scale) constructor. -/
def Path.make (sections : List PathSection) (scale : ℚ) : Path :=
  { sections := sections
    curSection := 0
    scale := scale
    time := 0
    isCircle := circleOf sections }

/-- The default-constructed Path().  The C++ default constructor leaves m_scale
indeterminate; it is only ever observed through getScale on static paths the
codec never encodes, so the embedding fixes it to 1. -/
def Path.defaultPath : Path :=
  { sections := [], curSection := 0, scale := 1, time := 0, isCircle := false }

/-- m_sections[i]; in the source every access is guarded by the cursor
invariant (curSection < size for nonempty paths), so the default is inert. -/
def Path.sectionAt (p : Path) (i : ℕ) : PathSection :=
  p.sections.getD i ⟨0, Vec3.zero⟩

/-- Path::isStatic. -/
def Path.isStatic (p : Path) : Bool := p.sections.isEmpty

/-- Path::getScale. -/
def Path.getScale (p : Path) : ℚ := p.scale

/-- Path::verify over the section list: throws at the first section whose time
is ≤ 0. -/
def Path.verifySections : List PathSection → Except String Unit
  | [] => .ok ()
  | s :: rest =>
    if s.time ≤ 0 then .error "path section times must be greater than zero"
    else Path.verifySections rest

/-- Path::verify. -/
def Path.verify (p : Path) : Except String Unit :=
  Path.verifySections p.sections

/-- Path::getPoint (open/closed anchor lookup).  For the closed case the C++
decrements the index and normalizes it with a while-loop followed by `% n`,
which for n > 0 is exactly the mathematical (euclidean) remainder used here. -/
def Path.getPoint (p : Path) (index : ℤ) : Vec3 :=
  if p.isCircle then
    let n : ℤ := p.sections.length
    let i : ℕ := ((index - 1) % n).toNat
    Vec3.smul p.scale (p.sectionAt i).position
  else
    if index ≤ 0 then Vec3.zero
    else Vec3.smul p.scale (p.sectionAt (min index.toNat (p.sections.length - 1))).position

/-- Path::getBezierPoint: the standard cubic Bezier blend (the source's range
asserts on t are comments in the embedding). -/
def getBezierPoint (left cp1 cp2 right : Vec3) (t : ℚ) : Vec3 :=
  Vec3.smul ((1 - t) * (1 - t) * ((1 - t))) left +
    Vec3.smul (3 * t * ((1 - t) * (1 - t))) cp1 +
    Vec3.smul (3 * (t * t) * (1 - t)) cp2 +
    Vec3.smul (t * t * t) right

/-- Path::getPosition.  Note: the single-section branch multiplies the raw
section position (front()) by m_time / time and does NOT apply m_scale,
unlike getPoint. -/
def Path.getPosition (p : Path) : Vec3 :=
  if p.sections.isEmpty then Vec3.zero
  else if p.sections.length = 1 then
    Vec3.smul (p.time / (p.sectionAt 0).time) (p.sectionAt 0).position
  else
    let preLeft := p.getPoint ((p.curSection : ℤ) - 1)
    let left := p.getPoint (p.curSection : ℤ)
    let right := p.getPoint ((p.curSection : ℤ) + 1)
    let postRight := p.getPoint ((p.curSection : ℤ) + 2)
    let cp1 := left + Vec3.divs (right - preLeft) 6
    let cp2 := right + Vec3.divs (left - postRight) 6
    getBezierPoint left cp1 cp2 right (p.time / (p.sectionAt p.curSection).time)

/-- The while-loop of Path::update, embedded with explicit fuel (the C++ loop
is unbounded; every theorem below only needs runs on which it takes zero
iterations, and holds for every fuel). -/
def Path.updateAux : ℕ → List PathSection → ℕ → ℚ → ℕ × ℚ
  | 0, _, cur, t => (cur, t)
  | fuel + 1, secs, cur, t =>
    if (secs.getD cur ⟨0, Vec3.zero⟩).time < t then
      Path.updateAux fuel secs ((cur + 1) % secs.length) (t - (secs.getD cur ⟨0, Vec3.zero⟩).time)
    else (cur, t)

/-- Path::update(dt): accumulate elapsed time and roll the segment cursor. -/
def Path.update (fuel : ℕ) (p : Path) (dt : ℚ) : Path :=
  if p.sections.isEmpty then p
  else
    let r := Path.updateAux fuel p.sections p.curSection (p.time + dt)
    { p with curSection := r.1, time := r.2 }

/-- sample(t) of the spec: construct the path, advance it by the elapsed time
once, and read the interpolated position. -/
def Path.sampleAt (fuel : ℕ) (sections : List PathSection) (scale : ℚ) (dt : ℚ) : Vec3 :=
  ((Path.make sections scale).update fuel dt).getPosition

/-! ## SceneDocument model (Camera.h, Light.h, Material.h, Environment.h, Mesh.h) -/

/-- hrsf::MaterialData (the GPU padding field is alignment only, never
serialized or compared, and is omitted). -/
structure MaterialData where
  albedo : Vec3
  coverage : ℚ
  emission : Vec3
  metalness : ℚ
  roughness : ℚ
  flags : ℕ
  translucency : ℚ
  specular : ℚ
  ior : ℚ
deriving DecidableEq, Repr

/-- MaterialData::Flags bit values.  TextureSpherical is referenced by the
codec under verification; the header revision in the corpus stops at
TextureClamp, so its value is the next free bit (no claim depends on it). -/
def MaterialData.transparentFlag : ℕ := 1

def MaterialData.volumeFlag : ℕ := 2

def MaterialData.ignoreNormalsFlag : ℕ := 4

def MaterialData.yOrientationFlag : ℕ := 8

def MaterialData.textureClampFlag : ℕ := 16

def MaterialData.textureSphericalFlag : ℕ := 32

/-- MaterialData::Default(). -/
def MaterialData.defaultData : MaterialData :=
  { albedo := ⟨1, 1, 1⟩
    coverage := 1
    emission := ⟨0, 0, 0⟩
    metalness := 0
    roughness := 1
    flags := 0
    translucency := 0
    specular := 1/10
    ior := 1 }

/-- hrsf::MaterialTextures (filesystem paths embedded as strings). -/
structure MaterialTextures where
  albedo : String
  specular : String
  coverage : String
deriving DecidableEq, Repr

/-- hrsf::Material. -/
structure Material where
  name : String
  textures : MaterialTextures
  data : MaterialData
deriving DecidableEq, Repr

/-- CameraData::Type. -/
inductive CameraType
  | pinhole
deriving DecidableEq, Repr

/-- hrsf::CameraData. -/
structure CameraData where
  type : CameraType
  position : Vec3
  direction : Vec3
  fov : ℚ
  near : ℚ
  far : ℚ
  speed : ℚ
  up : Vec3
deriving DecidableEq, Repr

/-- CameraData::Default(). -/
def CameraData.defaultData : CameraData :=
  { type := .pinhole
    position := ⟨0, 0, 0⟩
    direction := ⟨0, 0, 1⟩
    fov := 157/100
    near := 1/100
    far := 100000
    speed := 1
    up := ⟨0, 1, 0⟩ }

/-- hrsf::Camera. -/
structure Camera where
  data : CameraData
  positionPath : Path
  lookAtPath : Path
deriving DecidableEq, Repr

/-- LightData::Type. -/
inductive LightType
  | point
  | directional
deriving DecidableEq, Repr

/-- hrsf::LightData.  The C++ overlays position and direction in a union;
the embedding keeps both fields, only the active variant's field is ever
read or written (spec section 3: never both populated). -/
structure LightData where
  type : LightType
  position : Vec3
  direction : Vec3
  color : Vec3
  radius : ℚ
deriving DecidableEq, Repr

/-- hrsf::Light. -/
structure Light where
  data : LightData
  path : Path
deriving DecidableEq, Repr

/-- hrsf::Environment. -/
structure Environment where
  map : String
  ambient : String
  ambientUp : Vec3
  ambientDown : Vec3
  color : Vec3
deriving DecidableEq, Repr

/-- Environment::Default(). -/
def Environment.defaultEnv : Environment :=
  { map := "", ambient := "", ambientUp := Vec3.zero, ambientDown := Vec3.zero,
    color := Vec3.zero }

/-- bmf::Shape as the core sees it through the narrow geometry-store
interface: the material index (the remaining fields — index offsets, counts,
bounding data — belong to the external store and are untouched by this
core). -/
structure Shape where
  materialId : ℕ
deriving DecidableEq, Repr

/-- Modelled from the spec: the external triangle-mesh blob
(bmf::BinaryMesh16), seen through getShapes (mutable, spec section 6) plus
its own structural verify outcome (spec section 6: fails on structural
corruption). -/
structure TriMesh where
  shapes : List Shape
  structOk : Bool
deriving DecidableEq, Repr

/-- Modelled from the spec: the external billboard/point blob
(bmf::BinaryMesh).  `hasMatAttrib` is the bmf::Material bit of
getAttributes(); `matIds` is the per-vertex material-attribute view of the
strided vertex buffer (spec sections 4.2 and 9: the indices are stored
float-bit-reinterpreted and read/written by exact bit reinterpretation, so
the view is lossless and faithful). -/
structure BBMesh where
  hasMatAttrib : Bool
  matIds : List ℕ
  structOk : Bool
deriving DecidableEq, Repr

/-- Mesh::Type. -/
inductive MeshType
  | triangle
  | billboard
deriving DecidableEq, Repr

/-- hrsf::Mesh: a discriminant plus both blob members (the C++ struct holds
both; only the one selected by `type` is meaningful). -/
structure Mesh where
  type : MeshType
  triangle : TriMesh
  billboard : BBMesh
  position : Path
  lookAt : Path
deriving DecidableEq, Repr

/-- hrsf::SceneFormat: the in-memory scene document. -/
structure SceneFormat where
  meshes : List Mesh
  camera : Camera
  lights : List Light
  materials : List Material
  environment : Environment
deriving DecidableEq, Repr

/-! ## Material deduplication (SceneFormat::removeUnusedMaterials) -/

/-- The material references one mesh contributes, in source traversal order:
every shape's materialId for a triangle mesh, every vertex's material
attribute for a billboard mesh that carries the bmf::Material attribute. -/
def Mesh.matRefs (m : Mesh) : List ℕ :=
  if m.type = .triangle then m.triangle.shapes.map Shape.materialId
  else if m.type = .billboard then
    (if m.billboard.hasMatAttrib then m.billboard.matIds else [])
  else []

/-- All material references of the document, in source traversal order. -/
def SceneFormat.allRefs (d : SceneFormat) : List ℕ :=
  (d.meshes.map Mesh.matRefs).flatten

/-- The error produced when an index hits outside a census/lookup vector:
in the C++ this is an out-of-bounds vector access, i.e. undefined
behavior, which the total embedding surfaces explicitly. -/
def oobMsg : String := "material id out of bounds (undefined behavior)"

/-- isUsed[i] = true, with the vector bound made explicit. -/
def markUsed (isUsed : List Bool) (i : ℕ) : Except String (List Bool) :=
  if i < isUsed.length then .ok (isUsed.set i true) else .error oobMsg

/-- The census loops: mark every referenced material index used. -/
def censusList : List ℕ → List Bool → Except String (List Bool)
  | [], acc => .ok acc
  | i :: rest, acc => do censusList rest (← markUsed acc i)

/-- The lookup-table construction loop: used entries receive consecutive
compacted indices; unused entries keep the value-initialized 0. -/
def buildLookupAux : List Bool → ℕ → List ℕ
  | [], _ => []
  | b :: bs, cur =>
    if b then cur :: buildLookupAux bs (cur + 1) else 0 :: buildLookupAux bs cur

/-- materialLookup (resized to materials.size(), then filled over used
indices starting from 0). -/
def buildLookup (isUsed : List Bool) : List ℕ := buildLookupAux isUsed 0

/-- materialLookup[i], with the vector bound made explicit. -/
def lookupAt (table : List ℕ) (i : ℕ) : Except String ℕ :=
  if h : i < table.length then .ok (table.get ⟨i, h⟩) else .error oobMsg

/-- The reference-rewriting loop for one mesh: triangle shapes have their
materialId rewritten through the table; billboard meshes carrying the
material attribute have every vertex's attribute rewritten (through exact
bit reinterpretation in the C++, lossless in the list view). -/
def remapMesh (table : List ℕ) (m : Mesh) : Except String Mesh :=
  if m.type = .triangle then do
    let shapes ← m.triangle.shapes.mapM (fun s => do
      let v ← lookupAt table s.materialId
      pure { s with materialId := v })
    pure { m with triangle := { m.triangle with shapes := shapes } }
  else if m.type = .billboard then
    (if m.billboard.hasMatAttrib then do
      let ids ← m.billboard.matIds.mapM (lookupAt table)
      pure { m with billboard := { m.billboard with matIds := ids } }
    else pure m)
  else pure m

/-- The material-filter loop: keep exactly the used entries, in order. -/
def keepUsed {α : Type} : List α → List Bool → List α
  | [], _ => []
  | _ :: _, [] => []
  | a :: as, b :: bs => if b then a :: keepUsed as bs else keepUsed as bs

/-- SceneFormat::removeUnusedMaterials.  The early return fires when the
census is all-true; otherwise references are rewritten through the dense
lookup table and the material array is filtered. -/
def SceneFormat.removeUnusedMaterials (d : SceneFormat) : Except String SceneFormat := do
  let isUsed ← censusList d.allRefs (List.replicate d.materials.length false)
  if isUsed.all (fun b => b) then
    return d
  else do
    let meshes ← d.meshes.mapM (remapMesh (buildLookup isUsed))
    return { d with meshes := meshes, materials := keepUsed d.materials isUsed }

/-! ### Specification-side formulation (spec section 4.2), for the
refinement statements of C2/C9 -/

/-- A material index is used when some mesh element references it. -/
def SceneFormat.usedB (d : SceneFormat) (i : ℕ) : Bool := d.allRefs.contains i

/-- Spec wording: the dense remap assigns each used original index its rank
among used indices (stable order = original order, skipping unused ones). -/
def rankOf (used : ℕ → Bool) (i : ℕ) : ℕ := ((List.range i).filter used).length

/-- Spec wording: rewrite every shape/vertex material reference through the
remap. -/
def specRemapMesh (used : ℕ → Bool) (m : Mesh) : Mesh :=
  if m.type = .triangle then
    { m with triangle := { m.triangle with
        shapes := m.triangle.shapes.map (fun s => { s with materialId := rankOf used s.materialId }) } }
  else if m.type = .billboard then
    (if m.billboard.hasMatAttrib then
      { m with billboard := { m.billboard with
          matIds := m.billboard.matIds.map (rankOf used) } }
    else m)
  else m

/-- Spec wording: the document after deduplication — references rewritten
through the dense remap and the material array filtered to the used entries
in original order. -/
def SceneFormat.specRemap (d : SceneFormat) : SceneFormat :=
  { d with
    meshes := d.meshes.map (specRemapMesh d.usedB)
    materials := (d.materials.enum.filter (fun p => d.usedB p.1)).map Prod.snd }

/-- The in-bounds precondition checked by SceneFormat::verify: every
referenced material index is below materials.size(). -/
def SceneFormat.matRefsInBounds (d : SceneFormat) : Prop :=
  ∀ r ∈ d.allRefs, r < d.materials.length

instance (d : SceneFormat) : Decidable d.matRefsInBounds := by
  unfold SceneFormat.matRefsInBounds
  infer_instance

/-! ### Concrete documents for the dedup scenarios (material/camera fields
use integer-valued floats so concrete evaluation stays kernel-decidable) -/

def demoMatData : MaterialData :=
  { albedo := ⟨1, 1, 1⟩, coverage := 1, emission := ⟨0, 0, 0⟩, metalness := 0,
    roughness := 1, flags := 0, translucency := 0, specular := 0, ior := 1 }

def demoMat (s : String) : Material :=
  { name := s, textures := ⟨"", "", ""⟩, data := demoMatData }

def demoCameraData : CameraData :=
  { type := .pinhole
    position := ⟨0, 0, 0⟩
    direction := ⟨0, 0, 1⟩
    fov := 1
    near := 1
    far := 2
    speed := 1
    up := ⟨0, 1, 0⟩ }

def demoCamera : Camera :=
  { data := demoCameraData
    positionPath := Path.defaultPath
    lookAtPath := Path.defaultPath }

instance {ε α : Type} [DecidableEq ε] [DecidableEq α] : DecidableEq (Except ε α) := by
  intro a b
  cases a with
  | ok x =>
    cases b with
    | ok y => exact decidable_of_iff (x = y) (by simp)
    | error f => exact isFalse (by intro h; cases h)
  | error e =>
    cases b with
    | ok y => exact isFalse (by intro h; cases h)
    | error f => exact decidable_of_iff (e = f) (by simp)

def demoTriMesh (ids : List ℕ) : Mesh :=
  { type := .triangle, triangle := ⟨ids.map Shape.mk, true⟩,
    billboard := ⟨false, [], true⟩,
    position := Path.defaultPath, lookAt := Path.defaultPath }

/-- The spec's dedup scenario: 5 materials mat0..mat4, shapes referencing
exactly {0, 1, 3}. -/
def demoDoc5 : SceneFormat :=
  { meshes := [demoTriMesh [0, 1, 3]]
    camera := demoCamera
    lights := []
    materials := [demoMat "mat0", demoMat "mat1", demoMat "mat2",
      demoMat "mat3", demoMat "mat4"]
    environment := Environment.defaultEnv }

/-- The expected result of the dedup scenario. -/
def demoDoc5After : SceneFormat :=
  { meshes := [demoTriMesh [0, 1, 2]]
    camera := demoCamera
    lights := []
    materials := [demoMat "mat0", demoMat "mat1", demoMat "mat3"]
    environment := Environment.defaultEnv }

/-- An all-used document: 3 materials, shapes referencing {0, 1, 2}. -/
def demoDoc3 : SceneFormat :=
  { meshes := [demoTriMesh [0, 1, 2]]
    camera := demoCamera
    lights := []
    materials := [demoMat "mat0", demoMat "mat1", demoMat "mat2"]
    environment := Environment.defaultEnv }

/-! ## Verifier (SceneFormat::verify) -/

/-- Modelled from the spec: the external blob's own verify call
(spec section 6: fails on structural corruption), exposed through the
recorded outcome. -/
def blobVerify (ok : Bool) : Except String Unit :=
  if ok then .ok () else .error "bmf verify failed"

/-- The material bound-check loop: throws at the first reference not below
materials.size(), naming the offending id. -/
def checkIds (n : ℕ) : List ℕ → Except String Unit
  | [] => .ok ()
  | i :: rest =>
    if n ≤ i then .error ("material id out of bound: " ++ toString i)
    else checkIds n rest

/-- The per-mesh portion of SceneFormat::verify, in source order: the blob's
structural verify, then the material bound check, then the mesh's two
paths. -/
def Mesh.verifyPart (n : ℕ) (m : Mesh) : Except String Unit :=
  (if m.type = .triangle then
    blobVerify m.triangle.structOk >>= fun _ =>
      checkIds n (m.triangle.shapes.map Shape.materialId)
  else if m.type = .billboard then
    blobVerify m.billboard.structOk >>= fun _ =>
      (if m.billboard.hasMatAttrib then checkIds n m.billboard.matIds else pure ())
  else .error "invalid mesh type") >>= fun _ =>
  m.position.verify >>= fun _ =>
  m.lookAt.verify

def meshesVerify (n : ℕ) : List Mesh → Except String Unit
  | [] => .ok ()
  | m :: rest => Mesh.verifyPart n m >>= fun _ => meshesVerify n rest

def lightsVerify : List Light → Except String Unit
  | [] => .ok ()
  | l :: rest => l.path.verify >>= fun _ => lightsVerify rest

/-- SceneFormat::verify: meshes (blob verify, material bounds, mesh paths)
in order, then the light paths, then the camera's lookAt and position paths.
It is a read-only check: the embedding is a pure function of the document. -/
def SceneFormat.verify (d : SceneFormat) : Except String Unit :=
  meshesVerify d.materials.length d.meshes >>= fun _ =>
  lightsVerify d.lights >>= fun _ =>
  d.camera.lookAtPath.verify >>= fun _ =>
  d.camera.positionPath.verify

/-- The success condition of the per-mesh checks, as the spec words it. -/
def Mesh.verifyOkP (n : ℕ) (m : Mesh) : Prop :=
  (m.type = .triangle →
    m.triangle.structOk = true ∧ ∀ s ∈ m.triangle.shapes, s.materialId < n) ∧
  (m.type = .billboard →
    m.billboard.structOk = true ∧
      (m.billboard.hasMatAttrib = true → ∀ i ∈ m.billboard.matIds, i < n)) ∧
  (∀ s ∈ m.position.sections, 0 < s.time) ∧
  (∀ s ∈ m.lookAt.sections, 0 < s.time)

instance (n : ℕ) (m : Mesh) : Decidable (Mesh.verifyOkP n m) := by
  unfold Mesh.verifyOkP
  infer_instance

/-- One material, one triangle mesh whose only shape references index 1 =
materials.size(): out of bounds. -/
def demoDocOOB : SceneFormat :=
  { meshes := [demoTriMesh [1]], camera := demoCamera, lights := [],
    materials := [demoMat "mat0"], environment := Environment.defaultEnv }

/-- The same document with the reference reduced by one. -/
def demoDocOOBFixed : SceneFormat :=
  { meshes := [demoTriMesh [0]], camera := demoCamera, lights := [],
    materials := [demoMat "mat0"], environment := Environment.defaultEnv }

def demoBadLightData : LightData :=
  { type := .point
    position := ⟨0, 0, 0⟩
    direction := ⟨0, 0, 0⟩
    color := ⟨1, 0, 0⟩
    radius := 1 }

/-- A light whose path carries a zero-duration section (fails validate). -/
def demoBadLight : Light :=
  { data := demoBadLightData
    path := Path.make [⟨0, ⟨1, 0, 0⟩⟩] 1 }

/-- A document violating both the material bound and a light path: shows
which violation verify reports first. -/
def demoDocOrd : SceneFormat :=
  { meshes := [demoTriMesh [1]], camera := demoCamera, lights := [demoBadLight],
    materials := [demoMat "mat0"], environment := Environment.defaultEnv }

/-! ## Versioned JSON codec (SceneFormat.cpp) -/

/-- The error taxonomy of spec section 7.  The C++ uniformly throws
std::runtime_error; the spec's taxonomy distinguishes the classes by throw
site, which the embedding tags explicitly while keeping the source's message
strings.  (ValidationError is the separate Except String used by the verify
subsystem above.) -/
inductive Err where
  | io (msg : String)
  | format (msg : String)
  | version (msg : String)
deriving DecidableEq, Repr

/-- The structured text tree (nlohmann::json).  Object members are kept in
insertion order; the codec only ever looks members up by name, so member
ordering is unobservable. -/
inductive Json where
  | null
  | bool (b : Bool)
  | num (q : ℚ)
  | str (s : String)
  | arr (elems : List Json)
  | obj (fields : List (String × Json))

def lookupAssoc {α : Type} : List (String × α) → String → Option α
  | [], _ => none
  | (k, v) :: rest, name => if k = name then some v else lookupAssoc rest name

/-- j.find(name): object member lookup (non-objects have no members). -/
def Json.find : Json → String → Option Json
  | .obj fields, name => lookupAssoc fields name
  | _, _ => none

/-- A required member access j["name"] (const operator[] on a missing member
is undefined behavior in nlohmann::json; the total embedding surfaces it as
a FormatError naming the field). -/
def getReq (j : Json) (name : String) : Except Err Json :=
  match j.find name with
  | some v => .ok v
  | none => .error (.format ("missing field " ++ name))

/-- j.get<float>(): only a JSON number converts. -/
def getFloat : Json → Except Err ℚ
  | .num q => .ok q
  | _ => .error (.format "type error: expected number")

/-- j.get<std::string>(). -/
def getString : Json → Except Err String
  | .str s => .ok s
  | _ => .error (.format "type error: expected string")

/-- j.get<bool>(). -/
def getBool : Json → Except Err Bool
  | .bool b => .ok b
  | _ => .error (.format "type error: expected boolean")

/-- j.get<size_t>(): a non-negative integral number. -/
def getSizeT : Json → Except Err ℕ
  | .num q =>
    if q.den = 1 ∧ 0 ≤ q.num then .ok q.num.toNat
    else .error (.format "type error: expected unsigned integer")
  | _ => .error (.format "type error: expected unsigned integer")

/-- SceneFormat::getVec3: accept a scalar, a 1-element array (replicated into
all three components) or a 3-element array; any other arity is a format
error naming the arity. -/
def getVec3 : Json → Except Err Vec3
  | .arr xs =>
    if xs.length = 1 then
      getFloat (xs.getD 0 .null) >>= fun f => .ok (Vec3.splat f)
    else if xs.length = 3 then
      getFloat (xs.getD 0 .null) >>= fun a =>
      getFloat (xs.getD 1 .null) >>= fun b =>
      getFloat (xs.getD 2 .null) >>= fun c => .ok ⟨a, b, c⟩
    else
      .error (.format ("expected array with 3 or 1 element but got " ++
        toString xs.length))
  | j => getFloat j >>= fun f => .ok (Vec3.splat f)

/-- SceneFormat::writeVec3: a vector with three equal components collapses
into a single scalar, otherwise a 3-element array. -/
def writeVec3 (vec : Vec3) : Json :=
  if vec.x = vec.y ∧ vec.y = vec.z then .num vec.x
  else .arr [.num vec.x, .num vec.y, .num vec.z]

/-- getOrDefault for float fields. -/
def getOrDefaultF (j : Json) (name : String) (deflt : ℚ) : Except Err ℚ :=
  match j.find name with
  | none => .ok deflt
  | some v => getFloat v

/-- getOrDefault for boolean fields. -/
def getOrDefaultB (j : Json) (name : String) (deflt : Bool) : Except Err Bool :=
  match j.find name with
  | none => .ok deflt
  | some v => getBool v

/-- The glm::vec3 specialization of getOrDefault (goes through getVec3). -/
def getOrDefaultV (j : Json) (name : String) (deflt : Vec3) : Except Err Vec3 :=
  match j.find name with
  | none => .ok deflt
  | some v => getVec3 v

/-- Modelled from the spec: the filesystem seen by the codec — a map from
extension-bearing file names to parsed JSON trees, plus the external
geometry store's blobs by file name (spec section 6). -/
structure FileEnv where
  jsonFiles : List (String × Json)
  triFiles : List (String × TriMesh)
  bbFiles : List (String × BBMesh)

/-- Modelled from the spec (AssetPathResolver, spec section 2): POSIX-style
absolute-path test. -/
def isAbsolutePath (p : String) : Bool := p.startsWith "/"

/-- Modelled from the spec: the / operator on paths. -/
def joinPath (root p : String) : String := root ++ "/" ++ p

/-- SceneFormat::getAbsolutePath: an absolute reference is kept, a relative
one is resolved against the referencing file's directory. -/
def getAbsolutePath (root p : String) : String :=
  if isAbsolutePath p then p else joinPath root p

/-- Modelled from the spec: parent_path() of a POSIX-style filename. -/
def parentDir (s : String) : String :=
  String.intercalate "/" ((s.splitOn "/").dropLast)

/-- SceneFormat::openFile: append the .json extension and read-parse the
file, failing with an IOError naming the file when it cannot be opened. -/
def openFile (env : FileEnv) (filename : String) : Except Err Json :=
  match lookupAssoc env.jsonFiles (filename ++ ".json") with
  | some j => .ok j
  | none => .error (.io ("could not open " ++ filename ++ ".json"))

/-- SceneFormat::getPathJson: scale is elided when 1.0; every section writes
its time and (collapsed) position. -/
def getPathJson (path : Path) : Json :=
  .obj ((if path.getScale = 1 then [] else [("scale", .num path.getScale)]) ++
    [("sections", .arr (path.sections.map (fun s =>
      .obj [("time", .num s.time), ("pos", writeVec3 s.position)])))])

/-- SceneFormat::loadPathSectionJson. -/
def loadPathSectionJson (j : Json) : Except Err PathSection :=
  getReq j "time" >>= fun jt => getFloat jt >>= fun t =>
  getReq j "pos" >>= fun jp => getVec3 jp >>= fun p =>
  .ok ⟨t, p⟩

/-- SceneFormat::loadPathJson (and loadPath for the string branch): a string
names an external file holding the path; otherwise scale defaults to 1 and
the sections array (optional, else empty) is decoded.  File indirection is
embedded with explicit recursion fuel (the C++ recursion is unbounded on
cyclic file references). -/
def loadPathJson : ℕ → FileEnv → String → Json → Except Err Path
  | fuel, env, root, .str s =>
    (match fuel with
     | 0 => .error (.io "file recursion limit")
     | fuel + 1 =>
       openFile env (getAbsolutePath root s) >>= fun j2 =>
       loadPathJson fuel env (parentDir (getAbsolutePath root s)) j2)
  | _, _, _, j =>
    getOrDefaultF j "scale" 1 >>= fun scale =>
    (match j.find "sections" with
     | none => .ok []
     | some (.arr secs) => secs.mapM loadPathSectionJson
     | some _ => .error (.format "sections must be an array")) >>= fun sections =>
    .ok (Path.make sections scale)

/-- SceneFormat::getPathOrDefault: an absent member is the static default
path. -/
def getPathOrDefault (fuel : ℕ) (env : FileEnv) (j : Json) (name : String)
    (root : String) : Except Err Path :=
  match j.find name with
  | none => .ok Path.defaultPath
  | some v => loadPathJson fuel env root v

/-- SceneFormat::getCameraJson.  The camera type switch is total on the
single Pinhole constructor.  Note: the speed field is never written. -/
def getCameraJson (camera : Camera) : Json :=
  .obj ([("type", .str "Pinhole"),
      ("position", writeVec3 camera.data.position),
      ("direction", writeVec3 camera.data.direction),
      ("fov", .num camera.data.fov)] ++
    (if camera.data.near = CameraData.defaultData.near then []
     else [("near", .num camera.data.near)]) ++
    (if camera.data.far = CameraData.defaultData.far then []
     else [("far", .num camera.data.far)]) ++
    (if camera.data.up = CameraData.defaultData.up then []
     else [("up", writeVec3 camera.data.up)]) ++
    (if camera.positionPath.isStatic then []
     else [("positionPath", getPathJson camera.positionPath)]) ++
    (if camera.lookAtPath.isStatic then []
     else [("lookAtPath", getPathJson camera.lookAtPath)]))

/-- SceneFormat::loadCameraJson (and loadCamera for the string branch):
decodes the type tag, required position/direction/fov, the default-elided
near/far/up/speed and the two optional paths. -/
def loadCameraJson : ℕ → FileEnv → String → Json → Except Err Camera
  | fuel, env, root, .str s =>
    (match fuel with
     | 0 => .error (.io "file recursion limit")
     | fuel + 1 =>
       openFile env (getAbsolutePath root s) >>= fun j2 =>
       loadCameraJson fuel env (parentDir (getAbsolutePath root s)) j2)
  | fuel, env, root, j =>
    getReq j "type" >>= fun jt => getString jt >>= fun strType =>
    (if strType = "Pinhole" then .ok CameraType.pinhole
     else .error (.format ("unknown camera type " ++ strType))) >>= fun ctype =>
    getReq j "position" >>= fun jp => getVec3 jp >>= fun pos =>
    getReq j "direction" >>= fun jd => getVec3 jd >>= fun dir =>
    getReq j "fov" >>= fun jf => getFloat jf >>= fun fov =>
    getOrDefaultF j "near" CameraData.defaultData.near >>= fun near =>
    getOrDefaultF j "far" CameraData.defaultData.far >>= fun far =>
    getOrDefaultV j "up" CameraData.defaultData.up >>= fun up =>
    getOrDefaultF j "speed" 1 >>= fun speed =>
    getPathOrDefault fuel env j "positionPath" root >>= fun ppath =>
    getPathOrDefault fuel env j "lookAtPath" root >>= fun lpath =>
    .ok ⟨⟨ctype, pos, dir, fov, near, far, speed, up⟩, ppath, lpath⟩

/-! ### C1: round-trip of the camera sub-encoder loses the speed field -/

def demoSpeedCamData : CameraData := { CameraData.defaultData with speed := 2 }

/-- A camera with manual-movement speed 2 and static paths; every other
field keeps its default.  Any document carrying it passes verify(). -/
def demoSpeedCam : Camera := ⟨demoSpeedCamData, Path.defaultPath, Path.defaultPath⟩

/-- What the camera becomes after encode + decode: speed falls back to 1. -/
def demoSpeedCamAfter : Camera :=
  ⟨{ demoSpeedCamData with speed := 1 }, Path.defaultPath, Path.defaultPath⟩

/-- A verified document holding the speed-2 camera. -/
def demoSpeedDoc : SceneFormat :=
  { meshes := [], camera := demoSpeedCam, lights := [], materials := [],
    environment := Environment.defaultEnv }

def emptyEnv : FileEnv := ⟨[], [], []⟩

/-! ### Full-document decoding (SceneFormat::load) -/

/-- Modelled from the spec: fromSrgb applied componentwise.  The colour-space
conversion functions are external collaborators (spec section 1), so the
decoders are parameterized by the channel transfer function g. -/
def mapVec (g : ℚ → ℚ) (v : Vec3) : Vec3 := ⟨g v.x, g v.y, g v.z⟩

/-- SceneFormat::getFilename: an absent texture member is the empty path,
a present one resolves against the referencing file's directory. -/
def getFilename (j : Json) (name root : String) : Except Err String :=
  match j.find name with
  | none => .ok ""
  | some v => getString v >>= fun s => .ok (getAbsolutePath root s)

/-- One flag member of the material decoder: absent defaults to the
corresponding bit of MaterialData::Default().flags; a true value sets the
bit on the accumulator. -/
def flagBit (j : Json) (name : String) (flag : ℕ) (acc : ℕ) : Except Err ℕ :=
  getOrDefaultB j name (Nat.land MaterialData.defaultData.flags flag != 0) >>= fun b =>
  .ok (if b then Nat.lor acc flag else acc)

/-- SceneFormat::loadMaterialJson: name is required, textures default to
empty, colour fields pass through fromSrgb after defaulting, the six flag
members rebuild the bit set from zero. -/
def loadMaterialJson (g : ℚ → ℚ) (root : String) (j : Json) : Except Err Material :=
  getReq j "name" >>= fun jn => getString jn >>= fun name =>
  getFilename j "albedoTex" root >>= fun texAlbedo =>
  getFilename j "specularTex" root >>= fun texSpecular =>
  getFilename j "coverageTex" root >>= fun texCoverage =>
  getOrDefaultV j "albedo" MaterialData.defaultData.albedo >>= fun albedo0 =>
  getOrDefaultF j "roughness" MaterialData.defaultData.roughness >>= fun roughness =>
  getOrDefaultF j "coverage" MaterialData.defaultData.coverage >>= fun coverage =>
  getOrDefaultF j "specular" MaterialData.defaultData.specular >>= fun specular =>
  getOrDefaultV j "emission" MaterialData.defaultData.emission >>= fun emission0 =>
  getOrDefaultF j "metalness" 0 >>= fun metalness =>
  getOrDefaultF j "translucency" 0 >>= fun translucency =>
  getOrDefaultF j "ior" 1 >>= fun ior =>
  flagBit j "transparent" MaterialData.transparentFlag 0 >>= fun f1 =>
  flagBit j "volume" MaterialData.volumeFlag f1 >>= fun f2 =>
  flagBit j "ignore-normals" MaterialData.ignoreNormalsFlag f2 >>= fun f3 =>
  flagBit j "y-aligned" MaterialData.yOrientationFlag f3 >>= fun f4 =>
  flagBit j "texture-clamp" MaterialData.textureClampFlag f4 >>= fun f5 =>
  flagBit j "texture-spherical" MaterialData.textureSphericalFlag f5 >>= fun f6 =>
  .ok ⟨name, ⟨texAlbedo, texSpecular, texCoverage⟩,
    ⟨mapVec g albedo0, coverage, mapVec g emission0, metalness, roughness, f6,
      translucency, specular, ior⟩⟩

/-- SceneFormat::loadMaterialsJson (and loadMaterials for the string
branch): a string names an external file, otherwise the value must be an
array of material objects. -/
def loadMaterialsJson : ℕ → (ℚ → ℚ) → FileEnv → String → Json → Except Err (List Material)
  | fuel, g, env, root, .str s =>
    (match fuel with
     | 0 => .error (.io "file recursion limit")
     | fuel + 1 =>
       openFile env (getAbsolutePath root s) >>= fun j2 =>
       loadMaterialsJson fuel g env (parentDir (getAbsolutePath root s)) j2)
  | _, g, _, root, .arr ms => ms.mapM (loadMaterialJson g root)
  | _, _, _, _, _ => .error (.format "materials must be an array")

/-- SceneFormat::loadLightJson.  The C++ Light is default-constructed and
only the active union member is assigned; the embedding fixes the inactive
member (and the point-only radius, for directional lights) at zero, which
is never observed. -/
def loadLightJson (fuel : ℕ) (g : ℚ → ℚ) (env : FileEnv) (root : String) (j : Json) :
    Except Err Light :=
  getReq j "type" >>= fun jt => getString jt >>= fun strType =>
  (if strType = "Point" then
    getReq j "position" >>= fun jp => getVec3 jp >>= fun pos =>
    getReq j "radius" >>= fun jr => getFloat jr >>= fun radius =>
    .ok (LightType.point, pos, Vec3.zero, radius)
  else if strType = "Directional" then
    getReq j "direction" >>= fun jd => getVec3 jd >>= fun dir =>
    .ok (LightType.directional, Vec3.zero, dir, (0 : ℚ))
  else .error (.format ("invalid light type " ++ strType))) >>= fun quad =>
  getReq j "color" >>= fun jc => getVec3 jc >>= fun color0 =>
  getPathOrDefault fuel env j "path" root >>= fun path =>
  .ok ⟨⟨quad.1, quad.2.1, quad.2.2.1, mapVec g color0, quad.2.2.2⟩, path⟩

/-- SceneFormat::loadLightsJson (and loadLights for the string branch). -/
def loadLightsJson : ℕ → (ℚ → ℚ) → FileEnv → String → Json → Except Err (List Light)
  | fuel, g, env, root, .str s =>
    (match fuel with
     | 0 => .error (.io "file recursion limit")
     | fuel + 1 =>
       openFile env (getAbsolutePath root s) >>= fun j2 =>
       loadLightsJson fuel g env (parentDir (getAbsolutePath root s)) j2)
  | fuel, g, env, root, .arr ls => ls.mapM (loadLightJson fuel g env root)
  | _, _, _, _, _ => .error (.format "lights must be an array")

/-- SceneFormat::loadEnvironmentJson (and loadEnvironment for the string
branch): color is required, the ambient pair defaults, map textures resolve
relative to the referencing file. -/
def loadEnvironmentJson : ℕ → (ℚ → ℚ) → FileEnv → String → Json → Except Err Environment
  | fuel, g, env, root, .str s =>
    (match fuel with
     | 0 => .error (.io "file recursion limit")
     | fuel + 1 =>
       openFile env (getAbsolutePath root s) >>= fun j2 =>
       loadEnvironmentJson fuel g env (parentDir (getAbsolutePath root s)) j2)
  | _, g, _, root, j =>
    getReq j "color" >>= fun jc => getVec3 jc >>= fun color0 =>
    getOrDefaultV j "ambientUp" Environment.defaultEnv.ambientUp >>= fun up0 =>
    getOrDefaultV j "ambientDown" Environment.defaultEnv.ambientDown >>= fun down0 =>
    getFilename j "map" root >>= fun mp =>
    getFilename j "ambient" root >>= fun amb =>
    .ok ⟨mp, amb, mapVec g up0, mapVec g down0, mapVec g color0⟩

/-- SceneFormat::loadMeshJson: reads the bmf file reference and the type
tag, loads the blob from the external geometry store (modelled from the
spec as the environment's blob maps), then the two optional paths; an
unknown tag is a FormatError naming it.  The C++ Mesh default-constructs
both blob members; only the one selected by the tag is overwritten. -/
def loadMeshJson (fuel : ℕ) (env : FileEnv) (root : String) (j : Json) : Except Err Mesh :=
  getReq j "file" >>= fun jf => getString jf >>= fun mfile =>
  getReq j "type" >>= fun jt => getString jt >>= fun strType =>
  (if strType = "Triangle" then
    (match lookupAssoc env.triFiles (getAbsolutePath root mfile) with
     | some tri => .ok (MeshType.triangle, tri, (⟨false, [], true⟩ : BBMesh))
     | none => .error (.io ("could not open " ++ getAbsolutePath root mfile)))
  else if strType = "Billboard" then
    (match lookupAssoc env.bbFiles (getAbsolutePath root mfile) with
     | some bb => .ok (MeshType.billboard, (⟨[], true⟩ : TriMesh), bb)
     | none => .error (.io ("could not open " ++ getAbsolutePath root mfile)))
  else .error (.format ("unknown mesh type " ++ strType))) >>= fun blobs =>
  getPathOrDefault fuel env j "position" root >>= fun pos =>
  getPathOrDefault fuel env j "lookAt" root >>= fun la =>
  .ok ⟨blobs.1, blobs.2.1, blobs.2.2, pos, la⟩

/-- SceneFormat::loadMesh. -/
def loadMesh (fuel : ℕ) (env : FileEnv) (filename : String) : Except Err Mesh :=
  openFile env filename >>= fun j => loadMeshJson fuel env (parentDir filename) j

/-- j.get<std::vector<std::string>>(). -/
def getStringList : Json → Except Err (List String)
  | .arr xs => xs.mapM getString
  | _ => .error (.format "type error: expected array of strings")

/-- s_version: the codec-internal schema version constant. -/
def sVersion : ℕ := 5

/-- SceneFormat::load: open and parse the root file, gate on the version
field (before any component is decoded), then load the meshes named by the
meshes member and the camera/environment/materials/lights sub-trees, each of
which may be inline or a file reference. -/
def SceneFormat.load (fuel : ℕ) (g : ℚ → ℚ) (env : FileEnv) (filename : String) :
    Except Err SceneFormat :=
  openFile env filename >>= fun j =>
  getReq j "version" >>= fun jv => getSizeT jv >>= fun version =>
  if version ≠ sVersion then
    .error (.version (filename ++ " invalid version"))
  else
    getReq j "meshes" >>= fun jm => getStringList jm >>= fun meshNames =>
    meshNames.mapM (fun f => loadMesh fuel env (joinPath (parentDir filename) f))
      >>= fun meshes =>
    getReq j "camera" >>= fun jc =>
    loadCameraJson fuel env (parentDir filename) jc >>= fun camera =>
    getReq j "environment" >>= fun je =>
    loadEnvironmentJson fuel g env (parentDir filename) je >>= fun env0 =>
    getReq j "materials" >>= fun jms =>
    loadMaterialsJson fuel g env (parentDir filename) jms >>= fun materials =>
    getReq j "lights" >>= fun jl =>
    loadLightsJson fuel g env (parentDir filename) jl >>= fun lights =>
    .ok ⟨meshes, camera, lights, materials, env0⟩

/-- The version-gate scenario: a root file carrying version 4 = current - 1. -/
def demoVersionEnv : FileEnv :=
  ⟨[("scene.json", .obj [("version", .num ((4 : ℕ) : ℚ))])], [], []⟩

/-! ## Theorems -/

@[simp] theorem exceptOk_ok {ε α : Type} (a : α) : exceptOk (ε := ε) (.ok a) = true := rfl

@[simp] theorem exceptOk_error {ε α : Type} (e : ε) : exceptOk (α := α) (.error e) = false := rfl

@[simp] theorem Vec3.add_x (a b : Vec3) : (a + b).x = a.x + b.x := rfl

@[simp] theorem Vec3.add_y (a b : Vec3) : (a + b).y = a.y + b.y := rfl

@[simp] theorem Vec3.add_z (a b : Vec3) : (a + b).z = a.z + b.z := rfl

@[simp] theorem Vec3.sub_x (a b : Vec3) : (a - b).x = a.x - b.x := rfl

@[simp] theorem Vec3.sub_y (a b : Vec3) : (a - b).y = a.y - b.y := rfl

@[simp] theorem Vec3.sub_z (a b : Vec3) : (a - b).z = a.z - b.z := rfl

@[simp] theorem Vec3.smul_x (s : ℚ) (v : Vec3) : (Vec3.smul s v).x = s * v.x := rfl

@[simp] theorem Vec3.smul_y (s : ℚ) (v : Vec3) : (Vec3.smul s v).y = s * v.y := rfl

@[simp] theorem Vec3.smul_z (s : ℚ) (v : Vec3) : (Vec3.smul s v).z = s * v.z := rfl

@[simp] theorem Vec3.divs_x (v : Vec3) (s : ℚ) : (Vec3.divs v s).x = v.x / s := rfl

@[simp] theorem Vec3.divs_y (v : Vec3) (s : ℚ) : (Vec3.divs v s).y = v.y / s := rfl

@[simp] theorem Vec3.divs_z (v : Vec3) (s : ℚ) : (Vec3.divs v s).z = v.z / s := rfl

@[simp] theorem Vec3.zero_x : Vec3.zero.x = 0 := rfl

@[simp] theorem Vec3.zero_y : Vec3.zero.y = 0 := rfl

@[simp] theorem Vec3.zero_z : Vec3.zero.z = 0 := rfl

theorem Vec3.eq_iff (a b : Vec3) : a = b ↔ a.x = b.x ∧ a.y = b.y ∧ a.z = b.z := by
  cases a; cases b; simp

/-- Helper: verifySections answers exactly whether some section has time ≤ 0. -/
theorem verifySections_error_iff (l : List PathSection) :
    Path.verifySections l = .error "path section times must be greater than zero" ↔
      ∃ s ∈ l, s.time ≤ 0 := by
  induction l with
  | nil => simp [Path.verifySections]
  | cons s rest ih =>
    by_cases h : s.time ≤ 0
    · simp [Path.verifySections, h]
    · simp [Path.verifySections, h, ih]

/-- C6: Path::verify fails with the validation error if and only if some
section's time is ≤ 0 (so a section with time 0 fails, and all-positive
times pass). -/
theorem c6_path_verify_iff (p : Path) :
    Path.verify p = .error "path section times must be greater than zero" ↔
      ∃ s ∈ p.sections, s.time ≤ 0 := by
  exact verifySections_error_iff p.sections

/-- C6 witness: a concrete path with a zero-time section fails verify. -/
theorem c6_path_verify_iff_witness :
    Path.verify (Path.make [⟨0, ⟨1, 0, 0⟩⟩] 1) =
      .error "path section times must be greater than zero" := by
  exact (c6_path_verify_iff (Path.make [⟨0, ⟨1, 0, 0⟩⟩] 1)).mpr
    ⟨⟨0, ⟨1, 0, 0⟩⟩, by simp [Path.make], le_refl 0⟩

/-- Helper: with elapsed time at most the current section's duration, the
update loop takes zero iterations, for any fuel. -/
theorem updateAux_noStep (fuel : ℕ) (secs : List PathSection) (cur : ℕ) (t : ℚ)
    (h : ¬ (secs.getD cur ⟨0, Vec3.zero⟩).time < t) :
    Path.updateAux fuel secs cur t = (cur, t) := by
  cases fuel with
  | zero => rfl
  | succ fuel => rw [Path.updateAux, if_neg h]

/-- Helper: sampling with an elapsed time that stays inside the first section
leaves the cursor at 0 and evaluates getPosition at that elapsed time. -/
theorem sampleAt_noStep (fuel : ℕ) (secs : List PathSection) (scale t : ℚ)
    (hne : secs.isEmpty = false)
    (h : ¬ (secs.getD 0 ⟨0, Vec3.zero⟩).time < t) :
    Path.sampleAt fuel secs scale t =
      Path.getPosition ⟨secs, 0, scale, t, circleOf secs⟩ := by
  unfold Path.sampleAt Path.update
  have hs : (Path.make secs scale).sections = secs := rfl
  rw [hs, hne]
  simp only [Bool.false_eq_true, if_false]
  have hc : (Path.make secs scale).curSection = 0 := rfl
  have ht0 : (Path.make secs scale).time = 0 := rfl
  rw [hc, ht0, zero_add, updateAux_noStep fuel secs 0 t h]
  rfl

/-- C4 counterexample: the claim as stated is false on the code.  For the path
with the single section {time 4, pos (1,0,0)} and scale factor 2, sampling at
elapsed time 4 returns (1,0,0) and not position * scale = (2,0,0): the
single-section branch of Path::getPosition never multiplies by m_scale. -/
theorem c4_counterexample :
    Path.sampleAt 1 [⟨4, ⟨1, 0, 0⟩⟩] 2 4 = ⟨1, 0, 0⟩ ∧
      Path.sampleAt 1 [⟨4, ⟨1, 0, 0⟩⟩] 2 4 ≠ Vec3.smul 2 ⟨1, 0, 0⟩ := by
  have h : Path.sampleAt 1 [⟨4, ⟨1, 0, 0⟩⟩] 2 4 = ⟨1, 0, 0⟩ := by
    rw [sampleAt_noStep 1 [⟨4, ⟨1, 0, 0⟩⟩] 2 4 (by rfl) (by norm_num [List.getD])]
    unfold Path.getPosition
    norm_num [Path.sectionAt, List.getD, Vec3.eq_iff]
  refine ⟨h, ?_⟩
  rw [h]
  norm_num [Vec3.eq_iff]

/-- C4 as amended: for a path with exactly one section of strictly positive
duration and any elapsed time t ≤ that duration, sampling returns the
section's raw position scaled linearly by t / time; the path's scale factor
is NOT applied, so the sample at t = time is the unscaled section position. -/
theorem c4_single_section_sample (fuel : ℕ) (sec : PathSection) (scale t : ℚ)
    (hT : 0 < sec.time) (ht : t ≤ sec.time) :
    Path.sampleAt fuel [sec] scale t = Vec3.smul (t / sec.time) sec.position ∧
      Path.sampleAt fuel [sec] scale sec.time = sec.position := by
  have key : ∀ u : ℚ, u ≤ sec.time →
      Path.sampleAt fuel [sec] scale u = Vec3.smul (u / sec.time) sec.position := by
    intro u hu
    rw [sampleAt_noStep fuel [sec] scale u (by rfl) (by simpa [List.getD] using not_lt.mpr hu)]
    unfold Path.getPosition
    norm_num [Path.sectionAt, List.getD]
  refine ⟨key t ht, ?_⟩
  rw [key sec.time (le_refl _)]
  rw [div_self (ne_of_gt hT)]
  cases sec.position
  simp [Vec3.smul]

/-- C4 witness: the amended statement, at the counterexample's own input. -/
theorem c4_single_section_sample_witness :
    Path.sampleAt 1 [⟨4, ⟨1, 0, 0⟩⟩] 2 4 = Vec3.smul ((4 : ℚ) / 4) ⟨1, 0, 0⟩ ∧
      Path.sampleAt 1 [⟨4, ⟨1, 0, 0⟩⟩] 2 4 = ⟨1, 0, 0⟩ := by
  have h := c4_single_section_sample 1 ⟨4, ⟨1, 0, 0⟩⟩ 2 4 (by norm_num) (by norm_num)
  exact ⟨h.1, h.2⟩

/-- C5: on an open path (last section away from the origin) with at least two
sections, all of strictly positive duration, sampling the position at elapsed
time 0 with no prior advance yields the origin: the low-side neighbor lookup
clamps to the implicit origin anchor and the Bezier blend at u = 0 returns
the left endpoint. -/
theorem c5_open_path_sample_zero (fuel : ℕ) (sections : List PathSection) (scale : ℚ)
    (h2 : 2 ≤ sections.length)
    (hopen : ∀ s, sections.getLast? = some s → s.position ≠ Vec3.zero)
    (hpos : ∀ s ∈ sections, 0 < s.time) :
    Path.sampleAt fuel sections scale 0 = Vec3.zero := by
  have hne : sections.isEmpty = false := by
    cases sections with
    | nil => simp at h2
    | cons a l => rfl
  have hfirst : 0 < (sections.getD 0 ⟨0, Vec3.zero⟩).time := by
    cases sections with
    | nil => simp at h2
    | cons a l => exact hpos a (by simp [List.getD])
  rw [sampleAt_noStep fuel sections scale 0 hne (by exact not_lt.mpr (le_of_lt hfirst))]
  have hcirc : circleOf sections = false := by
    unfold circleOf
    cases hl : sections.getLast? with
    | none => rfl
    | some s => simp [hopen s hl]
  unfold Path.getPosition
  rw [if_neg (show ¬ (sections.isEmpty = true) by simp [hne])]
  rw [if_neg (show ¬ (sections.length = 1) by omega)]
  have hleft : ∀ idx : ℤ, idx ≤ 0 →
      Path.getPoint ⟨sections, 0, scale, 0, circleOf sections⟩ idx = Vec3.zero := by
    intro idx hidx
    unfold Path.getPoint
    rw [hcirc]
    simp [hidx]
  simp only [Nat.cast_zero, zero_sub, zero_add]
  rw [hleft (-1) (by norm_num), hleft 0 (le_refl 0)]
  unfold getBezierPoint
  rw [Vec3.eq_iff]
  norm_num

/-- C5 witness: a concrete open two-section path sampled at elapsed time 0. -/
theorem c5_open_path_sample_zero_witness :
    Path.sampleAt 1 [⟨1, ⟨1, 0, 0⟩⟩, ⟨1, ⟨2, 0, 0⟩⟩] 1 0 = Vec3.zero := by
  refine c5_open_path_sample_zero 1 [⟨1, ⟨1, 0, 0⟩⟩, ⟨1, ⟨2, 0, 0⟩⟩] 1 (by norm_num) ?_ ?_
  · intro s hs
    rw [show ([⟨1, ⟨1, 0, 0⟩⟩, ⟨1, ⟨2, 0, 0⟩⟩] : List PathSection).getLast? =
      some ⟨1, ⟨2, 0, 0⟩⟩ from rfl] at hs
    cases hs
    norm_num [Vec3.eq_iff]
  · intro s hs
    simp [List.mem_cons] at hs
    rcases hs with rfl | rfl <;> norm_num

/-! ### Census and lookup-table lemmas -/

@[simp] theorem okBind {ε α β : Type} (a : α) (f : α → Except ε β) :
    (Except.ok a >>= f : Except ε β) = f a := rfl

@[simp] theorem errBind {ε α β : Type} (e : ε) (f : α → Except ε β) :
    (Except.error e >>= f : Except ε β) = .error e := rfl

theorem getD_set_self (l : List Bool) (i : ℕ) (h : i < l.length) :
    (l.set i true).getD i false = true := by
  simp [List.getD, List.getElem?_set_self, h]

theorem getD_set_ne (l : List Bool) (i j : ℕ) (h : i ≠ j) :
    (l.set i true).getD j false = l.getD j false := by
  simp [List.getD, List.getElem?_set_ne h]

/-- When every reference is in bounds, the census succeeds and marks exactly
the referenced indices on top of the incoming accumulator. -/
theorem censusList_ok (refs : List ℕ) :
    ∀ acc : List Bool, (∀ r ∈ refs, r < acc.length) →
      ∃ u, censusList refs acc = .ok u ∧ u.length = acc.length ∧
        ∀ j, u.getD j false = (acc.getD j false || decide (j ∈ refs)) := by
  induction refs with
  | nil =>
    intro acc _
    exact ⟨acc, rfl, rfl, by simp⟩
  | cons i rest ih =>
    intro acc h
    have hi : i < acc.length := h i (by simp)
    have hmark : markUsed acc i = .ok (acc.set i true) := by
      simp [markUsed, hi]
    obtain ⟨u, hu, hul, huj⟩ := ih (acc.set i true)
      (by intro r hr; rw [List.length_set]; exact h r (by simp [hr]))
    refine ⟨u, ?_, by rw [hul, List.length_set], ?_⟩
    · show (do censusList rest (← markUsed acc i)) = .ok u
      rw [hmark]
      simpa using hu
    · intro j
      rw [huj j]
      by_cases hji : j = i
      · subst hji
        rw [getD_set_self acc j hi]
        simp
      · rw [getD_set_ne acc i j (fun he => hji he.symm)]
        simp [List.mem_cons, hji]

/-- When some reference is out of bounds, the census hits the out-of-bounds
access (undefined behavior in the C++) and the embedding errors. -/
theorem censusList_error (refs : List ℕ) :
    ∀ acc : List Bool, (∃ r ∈ refs, acc.length ≤ r) →
      censusList refs acc = .error oobMsg := by
  induction refs with
  | nil =>
    intro acc h
    obtain ⟨r, hr, _⟩ := h
    simp at hr
  | cons i rest ih =>
    intro acc h
    by_cases hi : i < acc.length
    · have hmark : markUsed acc i = .ok (acc.set i true) := by
        simp [markUsed, hi]
      have hbad : ∃ r ∈ rest, (acc.set i true).length ≤ r := by
        obtain ⟨r, hr, hler⟩ := h
        rcases List.mem_cons.mp hr with rfl | hmem
        · omega
        · exact ⟨r, hmem, by rw [List.length_set]; exact hler⟩
      show (do censusList rest (← markUsed acc i)) = .error oobMsg
      rw [hmark]
      simpa using ih (acc.set i true) hbad
    · have hmark : markUsed acc i = .error oobMsg := by
        simp [markUsed, hi]
      show (do censusList rest (← markUsed acc i)) = .error oobMsg
      rw [hmark]
      rfl

theorem buildLookupAux_length (bs : List Bool) : ∀ c, (buildLookupAux bs c).length = bs.length := by
  induction bs with
  | nil => intro c; rfl
  | cons b bs ih =>
    intro c
    by_cases hb : b = true
    · simp [buildLookupAux, hb, ih]
    · simp [buildLookupAux, hb, ih]

/-- A used entry of the lookup table holds the running index plus the number
of used entries strictly before it. -/
theorem buildLookupAux_getD (bs : List Bool) :
    ∀ c i, bs.getD i false = true →
      (buildLookupAux bs c).getD i 0 = c + (bs.take i).count true := by
  induction bs with
  | nil =>
    intro c i h
    simp [List.getD] at h
  | cons b bs ih =>
    intro c i h
    cases b with
    | true =>
      have hstep : buildLookupAux (true :: bs) c = c :: buildLookupAux bs (c + 1) := rfl
      cases i with
      | zero => rw [hstep]; simp [List.getD]
      | succ i =>
        have htail : bs.getD i false = true := by simpa [List.getD] using h
        have hih := ih (c + 1) i htail
        rw [hstep]
        have hgoal : ((c :: buildLookupAux bs (c + 1)).getD (i + 1) 0)
            = (buildLookupAux bs (c + 1)).getD i 0 := by
          simp [List.getD]
        rw [hgoal, hih]
        rw [show ((true :: bs).take (i + 1)).count true = (bs.take i).count true + 1 by
          simp [List.take_succ_cons, List.count_cons]]
        omega
    | false =>
      have hstep : buildLookupAux (false :: bs) c = 0 :: buildLookupAux bs c := rfl
      cases i with
      | zero => simp [List.getD] at h
      | succ i =>
        have htail : bs.getD i false = true := by simpa [List.getD] using h
        have hih := ih c i htail
        rw [hstep]
        have hgoal : ((0 :: buildLookupAux bs c).getD (i + 1) 0)
            = (buildLookupAux bs c).getD i 0 := by
          simp [List.getD]
        rw [hgoal, hih]
        rw [show ((false :: bs).take (i + 1)).count true = (bs.take i).count true by
          simp [List.take_succ_cons, List.count_cons]]

theorem mapM_ok {ε α β : Type} (F : α → Except ε β) (f : α → β) :
    ∀ l : List α, (∀ a ∈ l, F a = .ok (f a)) → l.mapM F = .ok (l.map f) := by
  intro l
  induction l with
  | nil => intro _; rfl
  | cons a l ih =>
    intro h
    rw [List.mapM_cons, h a (by simp), okBind, ih (fun b hb => h b (by simp [hb])), okBind]
    rfl

/-- The material-filter loop agrees with the spec-side formulation
(enumerate, filter by usedness of the index, project the entries). -/
theorem keepUsed_eq {α : Type} (f : ℕ → Bool) :
    ∀ (mats : List α) (u : List Bool) (k : ℕ),
      u.length = mats.length →
      (∀ j, u.getD j false = f (k + j)) →
      keepUsed mats u = ((List.enumFrom k mats).filter (fun p => f p.1)).map Prod.snd := by
  intro mats
  induction mats with
  | nil =>
    intro u k hlen _
    cases u with
    | nil => rfl
    | cons b bs => simp at hlen
  | cons a as ih =>
    intro u k hlen hpt
    cases u with
    | nil => simp at hlen
    | cons b bs =>
      have hb : b = f k := by simpa [List.getD] using hpt 0
      have htail : ∀ j, bs.getD j false = f (k + 1 + j) := by
        intro j
        have := hpt (j + 1)
        rw [show k + (j + 1) = k + 1 + j by omega] at this
        simpa [List.getD] using this
      have hlen' : bs.length = as.length := by simpa using hlen
      rw [show List.enumFrom k (a :: as) = (k, a) :: List.enumFrom (k + 1) as from rfl]
      rw [List.filter_cons]
      by_cases hf : f k = true
      · rw [if_pos (show ((fun p : ℕ × α => f p.1) (k, a)) = true from hf)]
        rw [show keepUsed (a :: as) (b :: bs) = a :: keepUsed as bs by
          rw [keepUsed, if_pos (hb.trans hf)]]
        rw [ih bs (k + 1) hlen' htail]
        rfl
      · rw [if_neg (show ¬ ((fun p : ℕ × α => f p.1) (k, a)) = true from hf)]
        rw [show keepUsed (a :: as) (b :: bs) = keepUsed as bs by
          rw [keepUsed, if_neg (show ¬ b = true by rw [hb]; exact hf)]]
        exact ih bs (k + 1) hlen' htail

theorem range_add_one (n : ℕ) : List.range (n + 1) = List.range n ++ [n] := by
  have h := List.range_succ (n := n)
  simpa using h

/-- Bridge from the census vector to the abstract rank function. -/
theorem count_take_eq_rank (u : List Bool) (g : ℕ → Bool)
    (hpt : ∀ j, u.getD j false = g j) :
    ∀ r, r ≤ u.length → (u.take r).count true = ((List.range r).filter g).length := by
  intro r
  induction r with
  | zero => intro _; simp
  | succ r ih =>
    intro hle
    have hr : r < u.length := by omega
    rw [List.take_succ, range_add_one r]
    rw [List.count_append, List.filter_append, List.length_append, ih (by omega)]
    congr 1
    rw [List.getElem?_eq_getElem hr]
    have hg : u[r] = g r := by
      have := hpt r
      simpa [List.getD, List.getElem?_eq_getElem hr] using this
    rw [show (some u[r]).toList = [u[r]] from rfl]
    cases hgr : g r with
    | true => rw [hg, hgr]; simp [hgr]
    | false => rw [hg, hgr]; simp [hgr]

/-- A used index's rank is below the total number of used indices. -/
theorem rank_lt_total (g : ℕ → Bool) (n r : ℕ) (hr : r < n) (hg : g r = true) :
    rankOf g r < ((List.range n).filter g).length := by
  have h1 : List.Sublist (List.range (r + 1)) (List.range n) :=
    (List.range_sublist).mpr (by omega)
  have h2 := (h1.filter g).length_le
  have h3 : ((List.range (r + 1)).filter g).length = rankOf g r + 1 := by
    rw [range_add_one r]
    simp [rankOf, List.filter_append, hg]
  omega

/-- The rank function enumerates the used indices densely: mapping it over
the used indices below n yields exactly 0, 1, …, (number used) - 1. -/
theorem rank_map_filter (g : ℕ → Bool) :
    ∀ n, ((List.range n).filter g).map (rankOf g) =
      List.range (((List.range n).filter g).length) := by
  intro n
  induction n with
  | zero => simp
  | succ n ih =>
    rw [range_add_one n, List.filter_append, List.map_append, ih, List.length_append]
    cases hg : g n with
    | true =>
      have h1 : List.filter g [n] = [n] := by simp [hg]
      rw [h1]
      rw [show List.map (rankOf g) [n] = [rankOf g n] from rfl]
      rw [show rankOf g n = ((List.range n).filter g).length from rfl]
      rw [show ([n] : List ℕ).length = 1 from rfl]
      exact (range_add_one _).symm
    | false =>
      have h1 : List.filter g [n] = [] := by simp [hg]
      rw [h1]
      simp

theorem usedB_eq (d : SceneFormat) (j : ℕ) : d.usedB j = decide (j ∈ d.allRefs) := by
  unfold SceneFormat.usedB
  cases hc : d.allRefs.contains j with
  | true => simp [List.elem_iff.mp hc]
  | false =>
    have hnot : j ∉ d.allRefs := fun hmem => by
      have h2 : d.allRefs.contains j = true := List.elem_iff.mpr hmem
      rw [hc] at h2
      exact Bool.false_ne_true h2
    simp [hnot]

theorem matRefs_mem_allRefs (d : SceneFormat) (m : Mesh) (hm : m ∈ d.meshes)
    (r : ℕ) (hr : r ∈ m.matRefs) : r ∈ d.allRefs :=
  List.mem_flatten.mpr ⟨m.matRefs, List.mem_map_of_mem Mesh.matRefs hm, hr⟩

theorem meshType_cases (t : MeshType) : t = .triangle ∨ t = .billboard := by
  cases t
  · exact Or.inl rfl
  · exact Or.inr rfl

theorem map_id_of {α : Type} (f : α → α) :
    ∀ l : List α, (∀ a ∈ l, f a = a) → l.map f = l := by
  intro l
  induction l with
  | nil => intro _; rfl
  | cons a as ih =>
    intro h
    rw [List.map_cons, h a (by simp), ih (fun b hb => h b (by simp [hb]))]

/-- Under the verify precondition, remapping one mesh through the built
lookup table agrees with the spec-side rank rewrite. -/
theorem remapMesh_eq_spec (d : SceneFormat) (u : List Bool)
    (hlen : u.length = d.materials.length)
    (hpt : ∀ j, u.getD j false = d.usedB j)
    (hb : d.matRefsInBounds)
    (m : Mesh) (hm : m ∈ d.meshes) :
    remapMesh (buildLookup u) m = .ok (specRemapMesh d.usedB m) := by
  have hlook : ∀ r ∈ m.matRefs, lookupAt (buildLookup u) r = .ok (rankOf d.usedB r) := by
    intro r hr
    have hmem : r ∈ d.allRefs := matRefs_mem_allRefs d m hm r hr
    have hrn : r < d.materials.length := hb r hmem
    have htlen : (buildLookup u).length = u.length := buildLookupAux_length u 0
    have hrlen : r < (buildLookup u).length := by omega
    have hused : u.getD r false = true := by
      rw [hpt r, usedB_eq]
      simp [hmem]
    unfold lookupAt
    rw [dif_pos hrlen]
    have hget : (buildLookup u).get ⟨r, hrlen⟩ = (buildLookup u).getD r 0 := by
      simp [List.getD, List.getElem?_eq_getElem hrlen, List.get_eq_getElem]
    rw [hget, show (buildLookup u).getD r 0 = 0 + (u.take r).count true from
      buildLookupAux_getD u 0 r hused]
    rw [zero_add, count_take_eq_rank u d.usedB hpt r (by omega)]
    rfl
  rcases meshType_cases m.type with htype | htype
  · -- triangle
    have hrefs : ∀ s ∈ m.triangle.shapes, s.materialId ∈ m.matRefs := by
      intro s hs
      unfold Mesh.matRefs
      rw [if_pos htype]
      exact List.mem_map_of_mem Shape.materialId hs
    unfold remapMesh specRemapMesh
    rw [if_pos htype, if_pos htype]
    rw [mapM_ok _ (fun s => { s with materialId := rankOf d.usedB s.materialId })
      m.triangle.shapes ?_]
    · rfl
    · intro s hs
      rw [hlook s.materialId (hrefs s hs), okBind]
      rfl
  · -- billboard
    have hnt : ¬ m.type = MeshType.triangle := by
      rw [htype]
      intro hcontra
      exact absurd hcontra (by intro h; cases h)
    unfold remapMesh specRemapMesh
    rw [if_neg hnt, if_neg hnt, if_pos htype, if_pos htype]
    by_cases hattr : m.billboard.hasMatAttrib = true
    · rw [if_pos hattr, if_pos hattr]
      have hrefs : ∀ i ∈ m.billboard.matIds, i ∈ m.matRefs := by
        intro i hi
        unfold Mesh.matRefs
        rw [if_neg hnt, if_pos htype, if_pos hattr]
        exact hi
      rw [mapM_ok _ (rankOf d.usedB) m.billboard.matIds
        (fun i hi => hlook i (hrefs i hi)), okBind]
      rfl
    · rw [if_neg hattr, if_neg hattr]
      rfl

/-- A position of the enumeration is below the offset plus the list length. -/
theorem enumFrom_fst_lt {α : Type} :
    ∀ (l : List α) (k : ℕ) (p : ℕ × α), p ∈ List.enumFrom k l → p.1 < k + l.length := by
  intro l
  induction l with
  | nil => intro k p h; simp [List.enumFrom] at h
  | cons a as ih =>
    intro k p h
    rw [show List.enumFrom k (a :: as) = (k, a) :: List.enumFrom (k + 1) as from rfl] at h
    rcases List.mem_cons.mp h with rfl | h
    · simp
    · have := ih (k + 1) p h
      simp only [List.length_cons]
      omega

/-- When every material is used, the spec-side deduplication is the
identity. -/
theorem specRemap_eq_self (d : SceneFormat) (hb : d.matRefsInBounds)
    (hused : ∀ j < d.materials.length, d.usedB j = true) :
    d.specRemap = d := by
  have hrank : ∀ r ∈ d.allRefs, rankOf d.usedB r = r := by
    intro r hr
    have hrn : r < d.materials.length := hb r hr
    unfold rankOf
    rw [List.filter_eq_self.mpr
      (fun j hj => hused j (lt_trans (List.mem_range.mp hj) hrn))]
    exact List.length_range r
  have hmesh : ∀ m ∈ d.meshes, specRemapMesh d.usedB m = m := by
    intro m hm
    rcases meshType_cases m.type with htype | htype
    · unfold specRemapMesh
      rw [if_pos htype]
      have hshapes : m.triangle.shapes.map
          (fun s => { s with materialId := rankOf d.usedB s.materialId }) = m.triangle.shapes := by
        refine map_id_of _ _ ?_
        intro s hs
        have hsr : s.materialId ∈ m.matRefs := by
          unfold Mesh.matRefs
          rw [if_pos htype]
          exact List.mem_map_of_mem Shape.materialId hs
        rw [hrank s.materialId (matRefs_mem_allRefs d m hm s.materialId hsr)]
      rw [hshapes]
    · have hnt : ¬ m.type = MeshType.triangle := by
        rw [htype]
        intro hcontra
        cases hcontra
      unfold specRemapMesh
      rw [if_neg hnt, if_pos htype]
      by_cases hattr : m.billboard.hasMatAttrib = true
      · rw [if_pos hattr]
        have hids : m.billboard.matIds.map (rankOf d.usedB) = m.billboard.matIds := by
          refine map_id_of _ _ ?_
          intro i hi
          have hir : i ∈ m.matRefs := by
            unfold Mesh.matRefs
            rw [if_neg hnt, if_pos htype, if_pos hattr]
            exact hi
          exact hrank i (matRefs_mem_allRefs d m hm i hir)
        rw [hids]
      · rw [if_neg hattr]
  unfold SceneFormat.specRemap
  rw [map_id_of _ _ hmesh]
  rw [List.filter_eq_self.mpr (by
    intro p hp
    have hplt : p.1 < d.materials.length := by
      have := enumFrom_fst_lt d.materials 0 p hp
      simpa using this
    simpa using hused p.1 hplt)]
  rw [List.enum_map_snd]

/-- census success-vector facts packaged for the main proofs. -/
theorem census_of_bounds (d : SceneFormat) (hb : d.matRefsInBounds) :
    ∃ u, censusList d.allRefs (List.replicate d.materials.length false) = .ok u ∧
      u.length = d.materials.length ∧
      ∀ j, u.getD j false = d.usedB j := by
  obtain ⟨u, hu, hlen, hpt⟩ := censusList_ok d.allRefs
    (List.replicate d.materials.length false)
    (by intro r hr; simpa using hb r hr)
  refine ⟨u, hu, by simpa using hlen, ?_⟩
  intro j
  rw [hpt j, usedB_eq]
  have hrep : (List.replicate d.materials.length false).getD j false = false := by
    simp [List.getD, List.getElem?_replicate]
    split
    · rfl
    · rfl
  rw [hrep]
  simp

/-- Main refinement: on every document satisfying the verify precondition,
removeUnusedMaterials succeeds and produces exactly the spec-side result
(dense rank remap plus stable filter); in the all-used case both sides are
the unchanged document. -/
theorem removeUnused_eq_spec (d : SceneFormat) (hb : d.matRefsInBounds) :
    d.removeUnusedMaterials = .ok d.specRemap := by
  obtain ⟨u, hu, hlen, hpt⟩ := census_of_bounds d hb
  unfold SceneFormat.removeUnusedMaterials
  rw [hu, okBind]
  by_cases hall : u.all (fun b => b) = true
  · rw [if_pos hall]
    have hused : ∀ j < d.materials.length, d.usedB j = true := by
      intro j hj
      rw [← hpt j]
      have hjl : j < u.length := by omega
      have := List.all_eq_true.mp hall (u.get ⟨j, hjl⟩) (u.get_mem _ _)
      simpa [List.getD, List.getElem?_eq_getElem hjl, List.get_eq_getElem] using this
    rw [specRemap_eq_self d hb hused]
    rfl
  · rw [if_neg hall]
    rw [mapM_ok (remapMesh (buildLookup u)) (specRemapMesh d.usedB) d.meshes
      (fun m hm => remapMesh_eq_spec d u hlen hpt hb m hm), okBind]
    rw [keepUsed_eq d.usedB d.materials u 0 hlen (by intro j; rw [hpt j, Nat.zero_add])]
    rfl

/-- The spec-side rewrite changes exactly the material references of a mesh,
mapping them through the rank function. -/
theorem matRefs_specRemapMesh (used : ℕ → Bool) (m : Mesh) :
    (specRemapMesh used m).matRefs = m.matRefs.map (rankOf used) := by
  rcases meshType_cases m.type with htype | htype
  · simp only [specRemapMesh, Mesh.matRefs, htype, if_true, List.map_map]
    rfl
  · by_cases hattr : m.billboard.hasMatAttrib = true
    · simp [specRemapMesh, Mesh.matRefs, htype, hattr]
    · simp [specRemapMesh, Mesh.matRefs, htype, hattr]

theorem allRefs_specRemap (d : SceneFormat) :
    d.specRemap.allRefs = d.allRefs.map (rankOf d.usedB) := by
  show ((d.meshes.map (specRemapMesh d.usedB)).map Mesh.matRefs).flatten
    = ((d.meshes.map Mesh.matRefs).flatten).map (rankOf d.usedB)
  rw [List.map_map]
  rw [show (Mesh.matRefs ∘ specRemapMesh d.usedB) =
    (List.map (rankOf d.usedB)) ∘ Mesh.matRefs from
    funext (fun m => matRefs_specRemapMesh d.usedB m)]
  rw [← List.map_map]
  exact (List.map_flatten (rankOf d.usedB) (d.meshes.map Mesh.matRefs)).symm

theorem enumFrom_filter_map_length {α : Type} (f : ℕ → Bool) :
    ∀ (l : List α) (k : ℕ),
      (((List.enumFrom k l).filter (fun p => f p.1)).map Prod.snd).length
        = ((List.range' k l.length).filter f).length := by
  intro l
  induction l with
  | nil => intro k; rfl
  | cons a as ih =>
    intro k
    rw [show List.enumFrom k (a :: as) = (k, a) :: List.enumFrom (k + 1) as from rfl]
    rw [show (a :: as).length = as.length + 1 from rfl]
    rw [show List.range' k (as.length + 1) = k :: List.range' (k + 1) as.length from rfl]
    rw [List.filter_cons, List.filter_cons]
    by_cases hf : f k = true
    · rw [if_pos (show ((fun p : ℕ × α => f p.1) (k, a)) = true from hf), if_pos hf]
      simp only [List.map_cons, List.length_cons]
      rw [ih (k + 1)]
    · rw [if_neg (show ¬ ((fun p : ℕ × α => f p.1) (k, a)) = true from hf), if_neg hf]
      exact ih (k + 1)

theorem specRemap_materials_length (d : SceneFormat) :
    d.specRemap.materials.length =
      ((List.range d.materials.length).filter d.usedB).length := by
  show (((List.enumFrom 0 d.materials).filter (fun p => d.usedB p.1)).map Prod.snd).length = _
  rw [enumFrom_filter_map_length d.usedB d.materials 0]
  rw [show List.range' 0 d.materials.length = List.range d.materials.length from
    (List.range_eq_range' d.materials.length).symm]

theorem specRemap_bounds (d : SceneFormat) (hb : d.matRefsInBounds) :
    d.specRemap.matRefsInBounds := by
  intro r hr
  rw [allRefs_specRemap] at hr
  obtain ⟨r0, hr0, rfl⟩ := List.mem_map.mp hr
  rw [specRemap_materials_length]
  exact rank_lt_total d.usedB d.materials.length r0 (hb r0 hr0)
    (by rw [usedB_eq]; simp [hr0])

theorem specRemap_allUsed (d : SceneFormat) (_hb : d.matRefsInBounds) :
    ∀ j < d.specRemap.materials.length, d.specRemap.usedB j = true := by
  intro j hj
  rw [specRemap_materials_length] at hj
  have hjmem : j ∈ List.range (((List.range d.materials.length).filter d.usedB).length) :=
    List.mem_range.mpr hj
  rw [← rank_map_filter d.usedB d.materials.length] at hjmem
  obtain ⟨i, hi, rfl⟩ := List.mem_map.mp hjmem
  have hiu : d.usedB i = true := (List.mem_filter.mp hi).2
  have himem : i ∈ d.allRefs := by
    have h2 := usedB_eq d i
    rw [hiu] at h2
    exact of_decide_eq_true h2.symm
  rw [usedB_eq, allRefs_specRemap]
  refine decide_eq_true ?_
  exact List.mem_map.mpr ⟨i, himem, rfl⟩

/-- When every material is referenced, removeUnusedMaterials is the identity
no-op (the early return fires after the census). -/
theorem removeUnused_of_allUsed (d : SceneFormat) (hb : d.matRefsInBounds)
    (hused : ∀ j < d.materials.length, d.usedB j = true) :
    d.removeUnusedMaterials = .ok d := by
  obtain ⟨u, hu, hlen, hpt⟩ := census_of_bounds d hb
  have hall : u.all (fun b => b) = true := by
    refine List.all_eq_true.mpr ?_
    intro b hbmem
    obtain ⟨j, hj, rfl⟩ := List.mem_iff_getElem.mp hbmem
    have h2 := hpt j
    rw [show u.getD j false = u[j] by
      simp [List.getD, List.getElem?_eq_getElem hj]] at h2
    rw [h2]
    exact hused j (by omega)
  unfold SceneFormat.removeUnusedMaterials
  rw [hu, okBind, if_pos hall]
  rfl

/-- C2: removeUnusedMaterials realizes the spec-side dense remap: on every
document whose references are in bounds it returns exactly the document whose
references are rewritten through the order-preserving rank table and whose
material array is filtered to the used entries in original order; on the
5-material scenario (shapes referencing {0,1,3}) exactly mat0, mat1, mat3
survive in order and the shapes reference {0,1,2}. -/
theorem c2_remove_unused_materials :
    (∀ d : SceneFormat, d.matRefsInBounds → d.removeUnusedMaterials = .ok d.specRemap) ∧
      demoDoc5.removeUnusedMaterials = .ok demoDoc5After ∧
      demoDoc5After.materials.map Material.name = ["mat0", "mat1", "mat3"] ∧
      demoDoc5After.meshes.map Mesh.matRefs = [[0, 1, 2]] := by
  refine ⟨fun d hb => removeUnused_eq_spec d hb, ?_, ?_, ?_⟩
  · decide
  · decide
  · decide

/-- C2 witness: the refinement statement applied to the concrete scenario
document, whose bound check is discharged by evaluation. -/
theorem c2_remove_unused_materials_witness :
    demoDoc5.removeUnusedMaterials = .ok demoDoc5.specRemap := by
  exact c2_remove_unused_materials.1 demoDoc5 (by decide)

/-- C9: under the in-bounds precondition, removeUnusedMaterials is
idempotent (running it on its own output changes nothing), and when every
material is already used the single call is the identity no-op. -/
theorem c9_remove_unused_idempotent :
    (∀ d : SceneFormat, d.matRefsInBounds →
        (d.removeUnusedMaterials >>= SceneFormat.removeUnusedMaterials) =
          d.removeUnusedMaterials) ∧
      (∀ d : SceneFormat, d.matRefsInBounds →
        (∀ j < d.materials.length, d.usedB j = true) →
        d.removeUnusedMaterials = .ok d) := by
  constructor
  · intro d hb
    rw [removeUnused_eq_spec d hb, okBind]
    exact removeUnused_of_allUsed d.specRemap (specRemap_bounds d hb)
      (specRemap_allUsed d hb)
  · intro d hb hused
    exact removeUnused_of_allUsed d hb hused

/-- C9 witness: idempotence evaluated on the 5-material scenario and the
no-op evaluated on an all-used document. -/
theorem c9_remove_unused_idempotent_witness :
    (demoDoc5.removeUnusedMaterials >>= SceneFormat.removeUnusedMaterials) =
        demoDoc5.removeUnusedMaterials ∧
      demoDoc3.removeUnusedMaterials = .ok demoDoc3 := by
  constructor
  · exact c9_remove_unused_idempotent.1 demoDoc5 (by decide)
  · exact c9_remove_unused_idempotent.2 demoDoc3 (by decide) (by decide)

/-- C10: removeUnusedMaterials indexes its census vector and remap table with
the raw material indices; the out-of-bounds branch of the total embedding is
hit exactly on the documents violating the verify precondition — under the
precondition every access is in bounds and the error branch is unreachable. -/
theorem c10_remove_unused_oob (d : SceneFormat) :
    d.removeUnusedMaterials = .error oobMsg ↔ ¬ d.matRefsInBounds := by
  constructor
  · intro herr hb
    rw [removeUnused_eq_spec d hb] at herr
    exact Except.noConfusion herr
  · intro hnb
    have hbad : ∃ r ∈ d.allRefs, d.materials.length ≤ r := by
      unfold SceneFormat.matRefsInBounds at hnb
      push_neg at hnb
      obtain ⟨r, hr, hge⟩ := hnb
      exact ⟨r, hr, hge⟩
    have hcerr := censusList_error d.allRefs
      (List.replicate d.materials.length false) (by simpa using hbad)
    unfold SceneFormat.removeUnusedMaterials
    rw [hcerr]
    rfl

theorem exceptOk_bind_iff {ε α β : Type} (x : Except ε α) (f : α → Except ε β) :
    exceptOk (x >>= f) = true ↔ ∃ a, x = .ok a ∧ exceptOk (f a) = true := by
  cases x with
  | ok a => simp
  | error e => simp [errBind]

theorem verifySections_ok_iff (l : List PathSection) :
    exceptOk (Path.verifySections l) = true ↔ ∀ s ∈ l, 0 < s.time := by
  induction l with
  | nil => simp [Path.verifySections]
  | cons s rest ih =>
    by_cases h : s.time ≤ 0
    · rw [Path.verifySections, if_pos h]
      simp only [exceptOk_error, Bool.false_eq_true, false_iff]
      intro hall
      exact absurd (hall s (by simp)) (not_lt.mpr h)
    · rw [Path.verifySections, if_neg h, ih]
      constructor
      · intro hall s2 hs2
        rcases List.mem_cons.mp hs2 with rfl | hmem
        · exact not_le.mp h
        · exact hall s2 hmem
      · intro hall s2 hs2
        exact hall s2 (List.mem_cons_of_mem s hs2)

theorem checkIds_ok_iff (n : ℕ) (l : List ℕ) :
    exceptOk (checkIds n l) = true ↔ ∀ i ∈ l, i < n := by
  induction l with
  | nil => simp [checkIds]
  | cons i rest ih =>
    by_cases h : n ≤ i
    · rw [checkIds, if_pos h]
      simp only [exceptOk_error, Bool.false_eq_true, false_iff]
      intro hall
      exact absurd (hall i (by simp)) (not_lt.mpr h)
    · rw [checkIds, if_neg h, ih]
      constructor
      · intro hall j hj
        rcases List.mem_cons.mp hj with rfl | hmem
        · exact not_le.mp h
        · exact hall j hmem
      · intro hall j hj
        exact hall j (List.mem_cons_of_mem i hj)

theorem seq_ok_iff (x y : Except String Unit) :
    exceptOk (x >>= fun _ => y) = true ↔ exceptOk x = true ∧ exceptOk y = true := by
  cases x with
  | ok a => cases a; simp
  | error e => simp [errBind]

theorem blobVerify_ok_iff (b : Bool) : exceptOk (blobVerify b) = true ↔ b = true := by
  cases b <;> simp [blobVerify]

theorem pathVerify_ok_iff (p : Path) :
    exceptOk p.verify = true ↔ ∀ s ∈ p.sections, 0 < s.time :=
  verifySections_ok_iff p.sections

theorem meshVerifyPart_ok_iff (n : ℕ) (m : Mesh) :
    exceptOk (Mesh.verifyPart n m) = true ↔ Mesh.verifyOkP n m := by
  unfold Mesh.verifyPart Mesh.verifyOkP
  rcases meshType_cases m.type with htype | htype
  · rw [if_pos htype]
    rw [seq_ok_iff, seq_ok_iff, seq_ok_iff, blobVerify_ok_iff, checkIds_ok_iff,
      pathVerify_ok_iff, pathVerify_ok_iff]
    constructor
    · rintro ⟨⟨hblob, hids⟩, hpos, hla⟩
      refine ⟨fun _ => ⟨hblob, ?_⟩, fun hbb => ?_, hpos, hla⟩
      · intro s hs
        exact hids s.materialId (List.mem_map_of_mem Shape.materialId hs)
      · rw [htype] at hbb
        cases hbb
    · rintro ⟨htri, _, hpos, hla⟩
      obtain ⟨hblob, hids⟩ := htri htype
      refine ⟨⟨hblob, ?_⟩, hpos, hla⟩
      intro i hi
      obtain ⟨s, hs, rfl⟩ := List.mem_map.mp hi
      exact hids s hs
  · have hnt : ¬ m.type = MeshType.triangle := by
      rw [htype]
      intro hcontra
      cases hcontra
    rw [if_neg hnt, if_pos htype]
    rw [seq_ok_iff, seq_ok_iff, seq_ok_iff, blobVerify_ok_iff, pathVerify_ok_iff,
      pathVerify_ok_iff]
    constructor
    · rintro ⟨⟨hblob, hattr⟩, hpos, hla⟩
      refine ⟨fun htr => ?_, fun _ => ⟨hblob, ?_⟩, hpos, hla⟩
      · rw [htype] at htr
        cases htr
      · intro hat
        rw [if_pos hat] at hattr
        exact (checkIds_ok_iff n m.billboard.matIds).mp hattr
    · rintro ⟨_, hbb, hpos, hla⟩
      obtain ⟨hblob, hattr⟩ := hbb htype
      refine ⟨⟨hblob, ?_⟩, hpos, hla⟩
      by_cases hat : m.billboard.hasMatAttrib = true
      · rw [if_pos hat]
        exact (checkIds_ok_iff n m.billboard.matIds).mpr (hattr hat)
      · rw [if_neg hat]
        rfl

theorem meshesVerify_ok_iff (n : ℕ) (l : List Mesh) :
    exceptOk (meshesVerify n l) = true ↔ ∀ m ∈ l, Mesh.verifyOkP n m := by
  induction l with
  | nil => simp [meshesVerify]
  | cons m rest ih =>
    rw [show meshesVerify n (m :: rest)
      = (Mesh.verifyPart n m >>= fun _ => meshesVerify n rest) from rfl]
    rw [seq_ok_iff, meshVerifyPart_ok_iff, ih]
    constructor
    · rintro ⟨hm, hrest⟩ m2 hm2
      rcases List.mem_cons.mp hm2 with rfl | hmem
      · exact hm
      · exact hrest m2 hmem
    · intro hall
      exact ⟨hall m (by simp), fun m2 hm2 => hall m2 (List.mem_cons_of_mem m hm2)⟩

theorem lightsVerify_ok_iff (l : List Light) :
    exceptOk (lightsVerify l) = true ↔ ∀ lt ∈ l, ∀ s ∈ lt.path.sections, 0 < s.time := by
  induction l with
  | nil => simp [lightsVerify]
  | cons lt rest ih =>
    rw [show lightsVerify (lt :: rest)
      = (lt.path.verify >>= fun _ => lightsVerify rest) from rfl]
    rw [seq_ok_iff, pathVerify_ok_iff, ih]
    constructor
    · rintro ⟨hl, hrest⟩ l2 hl2
      rcases List.mem_cons.mp hl2 with rfl | hmem
      · exact hl
      · exact hrest l2 hmem
    · intro hall
      exact ⟨hall lt (by simp), fun l2 hl2 => hall l2 (List.mem_cons_of_mem lt hl2)⟩

/-- C7: SceneFormat::verify succeeds exactly when, per mesh, the blob is
structurally sound and every referenced material index is below
materials.size() and both mesh paths validate, and every light path and both
camera paths validate; it fails fast in source order (a document with both an
out-of-bounds reference and an invalid light path reports the material
error), and on the concrete scenario the shape referencing
materialId = materials.size() fails while the index reduced by one passes.
The embedding is a pure function: the document is never modified. -/
theorem c7_verify :
    (∀ d : SceneFormat, exceptOk d.verify = true ↔
        ((∀ m ∈ d.meshes, Mesh.verifyOkP d.materials.length m) ∧
          (∀ lt ∈ d.lights, ∀ s ∈ lt.path.sections, 0 < s.time) ∧
          (∀ s ∈ d.camera.lookAtPath.sections, 0 < s.time) ∧
          (∀ s ∈ d.camera.positionPath.sections, 0 < s.time))) ∧
      demoDocOOB.verify = .error "material id out of bound: 1" ∧
      exceptOk demoDocOOBFixed.verify = true ∧
      demoDocOrd.verify = .error "material id out of bound: 1" := by
  refine ⟨?_, by decide, by decide, by decide⟩
  intro d
  unfold SceneFormat.verify
  rw [seq_ok_iff, seq_ok_iff, seq_ok_iff, meshesVerify_ok_iff, lightsVerify_ok_iff,
    pathVerify_ok_iff, pathVerify_ok_iff]

/-- C7 witness: the characterization applied to the fixed concrete document,
its right-hand side discharged by evaluation. -/
theorem c7_verify_witness : exceptOk demoDocOOBFixed.verify = true :=
  (c7_verify.1 demoDocOOBFixed).mpr (by decide)

/-- C8: the encoder writes a single scalar exactly when all three components
are equal (otherwise a 3-element array), and the decoder accepts a scalar, a
1-element array or a 3-element array — replicating the first two into all
three components — and rejects any other arity with a FormatError naming the
arity. -/
theorem c8_scalar_vector_collapse :
    (∀ v : Vec3, (∃ q, writeVec3 v = .num q) ↔ (v.x = v.y ∧ v.y = v.z)) ∧
      (∀ v : Vec3, v.x = v.y ∧ v.y = v.z → writeVec3 v = .num v.x) ∧
      (∀ v : Vec3, ¬ (v.x = v.y ∧ v.y = v.z) →
        writeVec3 v = .arr [.num v.x, .num v.y, .num v.z]) ∧
      (∀ q : ℚ, getVec3 (.num q) = .ok (Vec3.splat q)) ∧
      (∀ q : ℚ, getVec3 (.arr [.num q]) = .ok (Vec3.splat q)) ∧
      (∀ a b c : ℚ, getVec3 (.arr [.num a, .num b, .num c]) = .ok ⟨a, b, c⟩) ∧
      (∀ xs : List Json, xs.length ≠ 1 → xs.length ≠ 3 →
        getVec3 (.arr xs) = .error (.format
          ("expected array with 3 or 1 element but got " ++ toString xs.length))) := by
  refine ⟨?_, ?_, ?_, ?_, ?_, ?_, ?_⟩
  · intro v
    constructor
    · rintro ⟨q, hq⟩
      unfold writeVec3 at hq
      by_cases h : v.x = v.y ∧ v.y = v.z
      · exact h
      · rw [if_neg h] at hq
        cases hq
    · intro h
      exact ⟨v.x, by rw [writeVec3, if_pos h]⟩
  · intro v h
    rw [writeVec3, if_pos h]
  · intro v h
    rw [writeVec3, if_neg h]
  · intro q
    rfl
  · intro q
    rfl
  · intro a b c
    rfl
  · intro xs h1 h3
    show (if xs.length = 1 then _ else if xs.length = 3 then _ else _) = _
    rw [if_neg h1, if_neg h3]

/-- C8 witness: the rejected-arity branch evaluated on a 2-element array,
and the collapse evaluated on an all-equal vector. -/
theorem c8_scalar_vector_collapse_witness :
    getVec3 (.arr [.null, .null]) = .error (.format
        ("expected array with 3 or 1 element but got " ++ toString 2)) ∧
      writeVec3 ⟨5, 5, 5⟩ = .num 5 := by
  constructor
  · exact c8_scalar_vector_collapse.2.2.2.2.2.2 [.null, .null] (by decide) (by decide)
  · exact c8_scalar_vector_collapse.2.1 ⟨5, 5, 5⟩ (by norm_num)

/-- C1 (code bug): the document with camera speed 2 passes verify(), yet the
camera does not survive decode(encode(·)): getCameraJson never writes the
speed member, loadCameraJson defaults it to 1, so the round-tripped camera
differs from the original in the speed field — a deviation not covered by
the documented lossy normalizations (no colour or collapse is involved). -/
theorem c1_round_trip_loses_speed :
    exceptOk demoSpeedDoc.verify = true ∧
      loadCameraJson 0 emptyEnv "" (getCameraJson demoSpeedCam) = .ok demoSpeedCamAfter ∧
      demoSpeedCamAfter ≠ demoSpeedCam := by
  have henc : getCameraJson demoSpeedCam =
      Json.obj [("type", .str "Pinhole"), ("position", .num 0),
        ("direction", .arr [.num 0, .num 0, .num 1]), ("fov", .num (157/100))] := by
    unfold getCameraJson demoSpeedCam demoSpeedCamData
    simp [writeVec3, CameraData.defaultData, Path.isStatic, Path.defaultPath]
  refine ⟨rfl, ?_, ?_⟩
  · rw [henc]
    simp [loadCameraJson, getReq, Json.find, lookupAssoc, getString, getFloat,
      getVec3, getOrDefaultF, getOrDefaultV, getPathOrDefault, demoSpeedCamAfter,
      demoSpeedCamData, CameraData.defaultData, Vec3.splat]
  · intro hcon
    have := congrArg (fun c => c.data.speed) hcon
    simp [demoSpeedCamAfter, demoSpeedCam, demoSpeedCamData] at this

/-- C3: loading any serialized tree whose version member is a natural number
different from the internal constant fails with a VersionError whose message
names the offending file, before any component is decoded: no document is
produced. -/
theorem c3_version_gate (fuel : ℕ) (g : ℚ → ℚ) (env : FileEnv) (filename : String)
    (j : Json) (v : ℕ)
    (hopen : lookupAssoc env.jsonFiles (filename ++ ".json") = some j)
    (hver : j.find "version" = some (.num (v : ℚ)))
    (hv : v ≠ sVersion) :
    SceneFormat.load fuel g env filename =
      .error (.version (filename ++ " invalid version")) := by
  unfold SceneFormat.load
  rw [show openFile env filename = .ok j by unfold openFile; rw [hopen], okBind]
  rw [show getReq j "version" = .ok (.num (v : ℚ)) by unfold getReq; rw [hver], okBind]
  rw [show getSizeT (.num (v : ℚ)) = .ok v by
    simp only [getSizeT]
    rw [if_pos ⟨Rat.den_natCast v, by rw [Rat.num_natCast]; exact Int.natCast_nonneg v⟩]
    rw [Rat.num_natCast, Int.toNat_natCast], okBind]
  rw [if_pos hv]

/-- C3 witness: the gate applied to the concrete version-4 file. -/
theorem c3_version_gate_witness :
    SceneFormat.load 0 id demoVersionEnv "scene" =
      .error (.version ("scene" ++ " invalid version")) := by
  exact c3_version_gate 0 id demoVersionEnv "scene"
    (.obj [("version", .num ((4 : ℕ) : ℚ))]) 4 rfl rfl (by decide)

end HRSF
